import Mathlib

/-!
Verification of the finsmart ETL core (metric aggregation, multi-signal
anomaly detection, root-cause contributor attribution) against its
natural-language specification.

The definitions below are a shallow embedding of the Python/SQL source:

* `src/finsmart_etl/anomalies.py` (`detect_anomalies` and its SQL window
  query) is embedded as pure functions over a month-ordered value series
  `List ℚ`.  The SQL window frames `ROWS BETWEEN k PRECEDING AND 1
  PRECEDING` become `frameRows`, `LAG(value, k)` becomes `lag`, and the
  three-valued NULL logic of the `CASE` expressions becomes `Option ℚ`.
  PostgreSQL `STDDEV` is the sample standard deviation (NULL on fewer
  than two rows); since the standard deviation itself is an irrational
  square root, the z-score signal is carried around as its square
  (`zscoreSq`), and the source's test `|zscore| >= 2.0` (guarded by
  `stddev > 0`) is the exactly equivalent rational test `zscoreSq >= 4`
  (guarded by the sample variance being positive).

* `src/finsmart_etl/contributors.py` (`compute_contributors_for_anomaly`,
  `compute_contributors_for_company`) is embedded over the per-label
  grouped sums the SQL `GROUP BY label ORDER BY ABS(SUM(amount)) DESC
  LIMIT top_n*2` query returns: `fetchContributors` performs the sort and
  limit, `selectLoop` is the Python accumulation loop, and
  `runAttribution` reproduces the early returns and the
  delete-then-insert on the per-anomaly stored rows.

* `src/finsmart_etl/metrics.py` (`compute_single_metric`,
  `compute_monthly_kpis`, `compute_total_revenue`,
  `compute_total_expenses`) is embedded over a transaction list and an
  association-list `monthly_kpis` store keyed by (metric name, month),
  with the `ON CONFLICT ... DO UPDATE` upsert as `upsertRow`.

Amounts and metric values are embedded as `ℚ` (the source columns are
PostgreSQL `numeric`, i.e. exact decimals).
-/

/-- `LAG(value, k) OVER (ORDER BY month)` at row `i` of the series:
the value `k` rows earlier, when it exists. -/
def lag (vs : List ℚ) (i k : ℕ) : Option ℚ :=
  if k ≤ i then vs.get? (i - k) else none

/-- The window frame `ROWS BETWEEN a PRECEDING AND 1 PRECEDING` at row
`i`: the values at rows `i - a` through `i - 1` (clipped at the start of
the series). -/
def frameRows (vs : List ℚ) (i a : ℕ) : List ℚ :=
  (List.range i).filterMap (fun j => if i ≤ j + a then vs.get? j else none)

/-- SQL `AVG` over a window frame: NULL on an empty frame. -/
def avgOpt (l : List ℚ) : Option ℚ :=
  if l.isEmpty then none else some (l.sum / (l.length : ℚ))

/-- The square of SQL `STDDEV` (sample standard deviation) over a window
frame: NULL on fewer than two rows. -/
def sampleVarOpt (l : List ℚ) : Option ℚ :=
  if 2 ≤ l.length then
    some ((l.map (fun x => (x - l.sum / (l.length : ℚ)) ^ 2)).sum / ((l.length : ℚ) - 1))
  else none

/-- The `CASE WHEN base != 0 AND base IS NOT NULL THEN (v - base) /
ABS(base) * 100 ELSE NULL END` percentage-change pattern used for the
MoM, YoY and rolling signals. -/
def pctVs (v : ℚ) (base : Option ℚ) : Option ℚ :=
  match base with
  | none => none
  | some b => if b = 0 then none else some ((v - b) / |b| * 100)

/-- `mom_pct`: month-over-month percentage change at row `i`. -/
def mom_pct (vs : List ℚ) (i : ℕ) : Option ℚ :=
  (vs.get? i).bind (fun v => pctVs v (lag vs i 1))

/-- `yoy_pct`: year-over-year percentage change at row `i`
(`LAG(value, 12)`). -/
def yoy_pct (vs : List ℚ) (i : ℕ) : Option ℚ :=
  (vs.get? i).bind (fun v => pctVs v (lag vs i 12))

/-- `rolling_3m_avg`: mean of the frame `ROWS BETWEEN 3 PRECEDING AND 1
PRECEDING`. -/
def rolling_3m_avg (vs : List ℚ) (i : ℕ) : Option ℚ :=
  avgOpt (frameRows vs i 3)

/-- `rolling_pct`: percentage deviation of the current value from
`rolling_3m_avg`. -/
def rolling_pct (vs : List ℚ) (i : ℕ) : Option ℚ :=
  (vs.get? i).bind (fun v => pctVs v (rolling_3m_avg vs i))

/-- The square of the SQL `zscore` column: defined exactly when the
6-row sample standard deviation is defined and positive (the source's
`CASE WHEN rolling_6m_stddev > 0`), in which case it carries
`(v - rolling_6m_avg)^2 / variance = zscore^2`. -/
def zscoreSq (vs : List ℚ) (i : ℕ) : Option ℚ :=
  (vs.get? i).bind (fun v =>
    match avgOpt (frameRows vs i 6), sampleVarOpt (frameRows vs i 6) with
    | some m, some var => if 0 < var then some ((v - m) ^ 2 / var) else none
    | _, _ => none)

/-- SQL three-valued test `ABS(x) >= t` on a possibly-NULL operand:
unknown (hence not satisfied) when NULL. -/
def absGe (o : Option ℚ) (t : ℚ) : Bool :=
  match o with
  | none => false
  | some x => decide (t ≤ |x|)

/-- SQL three-valued test `ABS(zscore) >= 2.0`, expressed on the squared
z-score as `zscoreSq >= 4`. -/
def zFires (o : Option ℚ) : Bool :=
  match o with
  | none => false
  | some z2 => decide ((4 : ℚ) ≤ z2)

/-- The `detection_reason` CASE expression of `detect_anomalies`:
`yoy_and_rolling`, then `yoy`, then `rolling`, then `zscore`, else NULL.
A row is inserted into `anomalies` exactly when this is not NULL. -/
def detection_reason (yoyT rollT : ℚ) (vs : List ℚ) (i : ℕ) : Option String :=
  if absGe (yoy_pct vs i) yoyT && absGe (rolling_pct vs i) rollT then some "yoy_and_rolling"
  else if absGe (yoy_pct vs i) yoyT then some "yoy"
  else if absGe (rolling_pct vs i) rollT then some "rolling"
  else if zFires (zscoreSq vs i) then some "zscore"
  else none

/-- `detect_anomalies` records an anomaly at row `i` of a series exactly
when `detection_reason` is not NULL (`WHERE detection_reason IS NOT
NULL`). -/
def fires (yoyT rollT : ℚ) (vs : List ℚ) (i : ℕ) : Bool :=
  (detection_reason yoyT rollT vs i).isSome

/-- One row of the grouped-label query of
`compute_contributors_for_anomaly`: a `label` (customer name, else
description, else "Unknown") and its summed amount for the anomaly's
(company, month, metric filter). -/
structure LabeledAmount where
  label : String
  total_amount : ℚ
deriving DecidableEq

/-- One stored `anomaly_contributors` row. -/
structure Contributor where
  label : String
  amount : ℚ
  share_of_total : ℚ
deriving DecidableEq

/-- The SQL `ORDER BY ABS(SUM(amount)) DESC` comparison on grouped
labels. -/
def contribOrder (a b : LabeledAmount) : Prop :=
  |b.total_amount| ≤ |a.total_amount|

instance : DecidableRel contribOrder :=
  fun _ _ => inferInstanceAs (Decidable (_ ≤ _))

instance : IsTotal LabeledAmount contribOrder :=
  ⟨fun _ _ => le_total _ _⟩

instance : IsTrans LabeledAmount contribOrder :=
  ⟨fun _ _ _ h1 h2 => le_trans h2 h1⟩

/-- The grouped-label query: all labels sorted by descending absolute
summed amount, limited to `top_n * 2` rows (`LIMIT %s` with
`top_n * 2`). -/
def fetchContributors (allLabels : List LabeledAmount) (top_n : ℕ) : List LabeledAmount :=
  (allLabels.insertionSort contribOrder).take (top_n * 2)

/-- `total = sum(abs(c["total_amount"]) for c in contributors)`. -/
def totalAbs (l : List LabeledAmount) : ℚ :=
  (l.map (fun c => |c.total_amount|)).sum

/-- The Python accumulation loop of `compute_contributors_for_anomaly`:
break before appending when `top_n` entries are selected; append the
entry with `share = abs(amount) / total`; break after appending when the
cumulative share has reached `coverage_threshold`. -/
def selectLoop (total : ℚ) (top_n : ℕ) (coverage_threshold : ℚ) :
    List LabeledAmount → ℕ → ℚ → List Contributor
  | [], _, _ => []
  | c :: rest, nsel, cum =>
    if top_n ≤ nsel then []
    else if coverage_threshold ≤ cum + |c.total_amount| / total then
      [⟨c.label, c.total_amount, |c.total_amount| / total⟩]
    else
      ⟨c.label, c.total_amount, |c.total_amount| / total⟩ ::
        selectLoop total top_n coverage_threshold rest (nsel + 1)
          (cum + |c.total_amount| / total)

/-- The set of contributor rows `compute_contributors_for_anomaly`
inserts: empty when the grouped query returns no rows or the fetched
total is zero (the two early `return 0` paths), otherwise the selection
loop's output. -/
def computeSelected (allLabels : List LabeledAmount) (top_n : ℕ)
    (coverage_threshold : ℚ) : List Contributor :=
  let contributors := fetchContributors allLabels top_n
  if contributors.isEmpty then []
  else if totalAbs contributors = 0 then []
  else selectLoop (totalAbs contributors) top_n coverage_threshold contributors 0 0

/-- The stored `anomaly_contributors` rows for the anomaly after one run
of `compute_contributors_for_anomaly`, starting from the previously
stored rows `old`: on the two early `return 0` paths the function
returns before the `DELETE`, so `old` survives; otherwise the old rows
are deleted and the newly selected rows inserted. -/
def runAttribution (old : List Contributor) (allLabels : List LabeledAmount)
    (top_n : ℕ) (coverage_threshold : ℚ) : List Contributor :=
  let contributors := fetchContributors allLabels top_n
  if contributors.isEmpty then old
  else if totalAbs contributors = 0 then old
  else selectLoop (totalAbs contributors) top_n coverage_threshold contributors 0 0

/-- Forget a stored row's share, recovering the grouped-label row it was
built from. -/
def toLA (s : Contributor) : LabeledAmount :=
  ⟨s.label, s.amount⟩

/-- Cumulative share of a list of stored rows. -/
def cumShare (l : List Contributor) : ℚ :=
  (l.map (fun s => s.share_of_total)).sum

/-- One normalized transaction row, restricted to the columns the metric
selectors and aggregation read. -/
structure Transaction where
  month : ℕ
  account_code : String
  account_name : String
  coa_name : String
  amount : ℚ

/-- `pat` occurs at the start of `l` (character-list model of SQL
`LIKE 'pat%'`). -/
def startsChars : List Char → List Char → Bool
  | _, [] => true
  | [], _ :: _ => false
  | c :: cs, p :: ps => c = p && startsChars cs ps

/-- `pat` occurs somewhere in `l`. -/
def hasSubChars : List Char → List Char → Bool
  | [], pat => startsChars [] pat
  | c :: rest, pat => startsChars (c :: rest) pat || hasSubChars rest pat

/-- Case-insensitive containment, the model of SQL `ILIKE '%pat%'` with
an upper-case `pat`. -/
def containsCI (s pat : String) : Bool :=
  hasSubChars (s.data.map Char.toUpper) pat.data

/-- A metric definition: unique name, transaction-selector predicate
(the `sql_filter`), revenue flag. -/
structure MetricDefinition where
  name : String
  sql_filter : Transaction → Bool
  is_revenue : Bool

/-- `account_code LIKE '1.1%'`, the `net_sales` selector. -/
def net_sales_filter (t : Transaction) : Bool :=
  startsChars t.account_code.data "1.1".data

/-- `(account_name = 'Advisory' OR coa_name ILIKE '%DANISMAN%')`. -/
def advisory_filter (t : Transaction) : Bool :=
  t.account_name == "Advisory" || containsCI t.coa_name "DANISMAN"

/-- `(account_name = 'Payroll' OR account_name ILIKE '%Personnel%')`. -/
def payroll_filter (t : Transaction) : Bool :=
  t.account_name == "Payroll" || containsCI t.account_name "PERSONNEL"

/-- The `METRIC_DEFINITIONS` registry of `metrics.py`. -/
def METRIC_DEFINITIONS : List MetricDefinition :=
  [⟨"net_sales", net_sales_filter, true⟩,
   ⟨"local_sales", fun t => t.account_name == "Local Sales", true⟩,
   ⟨"global_sales", fun t => t.account_name == "Global Sales", true⟩,
   ⟨"returns", fun t => t.account_name == "Returns (-)", true⟩,
   ⟨"advisory_expense", advisory_filter, false⟩,
   ⟨"software_expense", fun t => t.account_name == "Software", false⟩,
   ⟨"payroll", payroll_filter, false⟩,
   ⟨"marketing", fun t => t.account_name == "Marketing", false⟩,
   ⟨"hospitality", fun t => t.account_name == "Hospitality", false⟩,
   ⟨"office_rent", fun t => t.account_name == "Office Rent", false⟩,
   ⟨"car_expenses", fun t => t.account_name == "Car Expenses", false⟩,
   ⟨"food_expenses", fun t => t.account_name == "Food Expenses", false⟩,
   ⟨"travel_expenses", fun t => t.account_name == "Travel", false⟩,
   ⟨"interest_income", fun t => t.account_name == "Commision & Interest Income", true⟩]

/-- The rows `compute_single_metric`'s INSERT..SELECT produces: the
matching transactions grouped by month with their summed amounts.  A
month in which no transaction matches the selector produces no group and
hence no row (`WHERE` runs before `GROUP BY`). -/
def compute_single_metric_rows (txs : List Transaction) (sel : Transaction → Bool) :
    List (ℕ × ℚ) :=
  let matching := txs.filter sel
  ((matching.map (fun t => t.month)).dedup).map
    (fun m => (m, ((matching.filter (fun t => t.month == m)).map (fun t => t.amount)).sum))

/-- The `monthly_kpis` table restricted to one company: rows keyed by
(metric_name, month). -/
abbrev KpiStore := List ((String × ℕ) × ℚ)

/-- `ON CONFLICT (company_id, month, metric_name) DO UPDATE SET value =
EXCLUDED.value`: overwrite the row with the key, else append. -/
def upsertRow (k : String × ℕ) (v : ℚ) : KpiStore → KpiStore
  | [] => [(k, v)]
  | (k', v') :: rest => if k' = k then (k, v) :: rest else (k', v') :: upsertRow k v rest

def upsertRows (rows : List ((String × ℕ) × ℚ)) (s : KpiStore) : KpiStore :=
  rows.foldl (fun st r => upsertRow r.1 r.2 st) s

def lookupKpi (s : KpiStore) (k : String × ℕ) : Option ℚ :=
  (s.find? (fun r => decide (r.1 = k))).map (fun r => r.2)

/-- The keyed rows `compute_single_metric` upserts for one metric. -/
def kpiRows (txs : List Transaction) (metric : MetricDefinition) : List ((String × ℕ) × ℚ) :=
  (compute_single_metric_rows txs metric.sql_filter).map (fun r => ((metric.name, r.1), r.2))

/-- `compute_single_metric` against the store. -/
def compute_single_metric (txs : List Transaction) (metric : MetricDefinition)
    (s : KpiStore) : KpiStore :=
  upsertRows (kpiRows txs metric) s

/-- `compute_monthly_kpis`: every metric of the registry in order. -/
def compute_monthly_kpis (txs : List Transaction) (s : KpiStore) : KpiStore :=
  METRIC_DEFINITIONS.foldl (fun st metric => compute_single_metric txs metric st) s

/-- `revenue_metrics` of `compute_total_revenue`: revenue metrics
except `returns`. -/
def revenue_metrics : List String :=
  (METRIC_DEFINITIONS.filter (fun m => m.is_revenue && !(m.name == "returns"))).map
    (fun m => m.name)

/-- `expense_metrics` of `compute_total_expenses`. -/
def expense_metrics : List String :=
  (METRIC_DEFINITIONS.filter (fun m => !m.is_revenue)).map (fun m => m.name)

/-- The derived-total INSERT..SELECT of `compute_total_revenue` /
`compute_total_expenses`: group the stored rows whose metric name is in
`names` by month and sum their values under the name `outName`. -/
def totalRows (names : List String) (outName : String) (s : KpiStore) :
    List ((String × ℕ) × ℚ) :=
  let rows := s.filter (fun r => names.contains r.1.1)
  ((rows.map (fun r => r.1.2)).dedup).map
    (fun m => ((outName, m), ((rows.filter (fun r => r.1.2 == m)).map (fun r => r.2)).sum))

def compute_total_revenue (s : KpiStore) : KpiStore :=
  upsertRows (totalRows revenue_metrics "total_revenue" s) s

def compute_total_expenses (s : KpiStore) : KpiStore :=
  upsertRows (totalRows expense_metrics "total_expenses" s) s

/-- One full Metric Aggregator run: all base metrics, then the two
derived totals (`compute_monthly_kpis` then `compute_total_revenue` then
`compute_total_expenses`, as `runner.py` sequences them). -/
def aggregatorRun (s : KpiStore) (txs : List Transaction) : KpiStore :=
  compute_total_expenses (compute_total_revenue (compute_monthly_kpis txs s))

/-- The `for metric in METRIC_DEFINITIONS` loop of
`compute_monthly_kpis`: each unit's computation may raise; there is NO
try/except around the body, so the first exception propagates and
aborts the remaining units. -/
def compute_monthly_kpis_exc {α ε : Type} (f : α → Except ε ℕ) : List α → Except ε ℕ
  | [] => Except.ok 0
  | d :: ds =>
    match f d with
    | Except.error e => Except.error e
    | Except.ok c =>
      match compute_monthly_kpis_exc f ds with
      | Except.error e => Except.error e
      | Except.ok rest => Except.ok (c + rest)

/-- The `for anomaly_id in anomaly_ids` loop of
`compute_contributors_for_company`: each unit's computation is wrapped
in try/except, a failing unit contributes nothing and the loop
continues; the total of the successful units is returned. -/
def compute_contributors_for_company_exc {ι ε : Type} (f : ι → Except ε ℕ) : List ι → ℕ
  | [] => 0
  | i :: rest =>
    (match f i with
     | Except.ok c => c
     | Except.error _ => 0) + compute_contributors_for_company_exc f rest

/-- `compute_monthly_kpis` specialized to an arbitrary registry list,
for induction over the registry. -/
def foldMetrics (txs : List Transaction) (defs : List MetricDefinition)
    (s : KpiStore) : KpiStore :=
  defs.foldl (fun st metric => compute_single_metric txs metric st) s

/-! # Theorems -/

lemma absGe_none (t : ℚ) : absGe none t = false := rfl

lemma absGe_iff (o : Option ℚ) (t : ℚ) :
    absGe o t = true ↔ ∃ x, o = some x ∧ t ≤ |x| := by
  cases o <;> simp [absGe]

lemma zFires_iff (o : Option ℚ) :
    zFires o = true ↔ ∃ z2, o = some z2 ∧ (4 : ℚ) ≤ z2 := by
  cases o <;> simp [zFires]

/-- Case characterization of the `detection_reason` CASE expression in
terms of the three boolean signal tests. -/
lemma detection_reason_cases (yoyT rollT : ℚ) (vs : List ℚ) (i : ℕ) :
    (fires yoyT rollT vs i = true ↔
      (absGe (yoy_pct vs i) yoyT = true ∨ absGe (rolling_pct vs i) rollT = true ∨
        zFires (zscoreSq vs i) = true)) ∧
    (detection_reason yoyT rollT vs i = some "yoy_and_rolling" ↔
      (absGe (yoy_pct vs i) yoyT = true ∧ absGe (rolling_pct vs i) rollT = true)) ∧
    (detection_reason yoyT rollT vs i = some "yoy" ↔
      (absGe (yoy_pct vs i) yoyT = true ∧ absGe (rolling_pct vs i) rollT = false)) ∧
    (detection_reason yoyT rollT vs i = some "rolling" ↔
      (absGe (yoy_pct vs i) yoyT = false ∧ absGe (rolling_pct vs i) rollT = true)) ∧
    (detection_reason yoyT rollT vs i = some "zscore" ↔
      (absGe (yoy_pct vs i) yoyT = false ∧ absGe (rolling_pct vs i) rollT = false ∧
        zFires (zscoreSq vs i) = true)) := by
  unfold fires detection_reason
  cases hy : absGe (yoy_pct vs i) yoyT <;>
    cases hr : absGe (rolling_pct vs i) rollT <;>
      cases hz : zFires (zscoreSq vs i) <;> simp

/-- Claim C1: for every month-ordered series, `detect_anomalies` records
an anomaly at a row if and only if at least one of "|YoY| ≥ yoy
threshold", "|rolling deviation| ≥ rolling threshold", or "|zscore| ≥ 2"
holds (each signal contributing only when it is defined, the z-score
condition stated on the squared z-score as `zscoreSq ≥ 2²`); the stored
`detection_reason` follows the precedence `yoy_and_rolling` > `yoy` >
`rolling` > `zscore`; the MoM signal does not occur in the firing
condition. -/
theorem detection_rule_iff_and_precedence (yoyT rollT : ℚ) (vs : List ℚ) (i : ℕ) :
    (fires yoyT rollT vs i = true ↔
      ((∃ y, yoy_pct vs i = some y ∧ yoyT ≤ |y|) ∨
       (∃ r, rolling_pct vs i = some r ∧ rollT ≤ |r|) ∨
       (∃ z2, zscoreSq vs i = some z2 ∧ (2 : ℚ) ^ 2 ≤ z2))) ∧
    (detection_reason yoyT rollT vs i = some "yoy_and_rolling" ↔
      ((∃ y, yoy_pct vs i = some y ∧ yoyT ≤ |y|) ∧
       (∃ r, rolling_pct vs i = some r ∧ rollT ≤ |r|))) ∧
    (detection_reason yoyT rollT vs i = some "yoy" ↔
      ((∃ y, yoy_pct vs i = some y ∧ yoyT ≤ |y|) ∧
       ¬(∃ r, rolling_pct vs i = some r ∧ rollT ≤ |r|))) ∧
    (detection_reason yoyT rollT vs i = some "rolling" ↔
      (¬(∃ y, yoy_pct vs i = some y ∧ yoyT ≤ |y|) ∧
       (∃ r, rolling_pct vs i = some r ∧ rollT ≤ |r|))) ∧
    (detection_reason yoyT rollT vs i = some "zscore" ↔
      (¬(∃ y, yoy_pct vs i = some y ∧ yoyT ≤ |y|) ∧
       ¬(∃ r, rolling_pct vs i = some r ∧ rollT ≤ |r|) ∧
       (∃ z2, zscoreSq vs i = some z2 ∧ (2 : ℚ) ^ 2 ≤ z2))) := by
  have h4 : ((2 : ℚ) ^ 2) = 4 := by norm_num
  have hc := detection_reason_cases yoyT rollT vs i
  rw [← absGe_iff (yoy_pct vs i) yoyT, ← absGe_iff (rolling_pct vs i) rollT,
    h4, ← zFires_iff (zscoreSq vs i)]
  refine ⟨hc.1, hc.2.1, ?_, ?_, ?_⟩ <;>
    [rw [hc.2.2.1]; rw [hc.2.2.2.1]; rw [hc.2.2.2.2]] <;>
      simp

/-- Claim C2 (evaluation of the code at the spec's own test vector): on
the three-month series `[100000, 105000, 110000]` with default
thresholds, the first two months are not flagged, but the third month IS
flagged with `detection_reason = 'zscore'`: the trailing window holds the
two values 100000 and 105000, whose sample variance is 12 500 000, and
`(110000 - 102500)^2 / 12500000 = 4.5 ≥ 4`, i.e. `|z| = 3/√2 ≈ 2.12 ≥
2.0`.  This contradicts the spec's "MoM correctness" property and the
repository's own `test_no_false_positives` test. -/
theorem series_stable_growth_fires_zscore :
    detection_reason 30 25 [100000, 105000, 110000] 0 = none ∧
    detection_reason 30 25 [100000, 105000, 110000] 1 = none ∧
    detection_reason 30 25 [100000, 105000, 110000] 2 = some "zscore" ∧
    zscoreSq [100000, 105000, 110000] 2 = some (9 / 2) := by
  have h0 : frameRows [100000, 105000, 110000] 0 6 = [] := rfl
  have h13 : frameRows [100000, 105000, 110000] 1 3 = [100000] := rfl
  have h16 : frameRows [100000, 105000, 110000] 1 6 = [100000] := rfl
  have h23 : frameRows [100000, 105000, 110000] 2 3 = [100000, 105000] := rfl
  have h26 : frameRows [100000, 105000, 110000] 2 6 = [100000, 105000] := rfl
  have hz2 : zscoreSq [100000, 105000, 110000] 2 = some (9 / 2) := by
    simp only [zscoreSq, h26, avgOpt, sampleVarOpt, List.get?]
    norm_num
  have hr1 : rolling_pct [100000, 105000, 110000] 1 = some 5 := by
    simp only [rolling_pct, rolling_3m_avg, h13, avgOpt, pctVs, List.get?]
    norm_num
  have hr2 : rolling_pct [100000, 105000, 110000] 2 = some (1500 / 205) := by
    simp only [rolling_pct, rolling_3m_avg, h23, avgOpt, pctVs, List.get?]
    norm_num
  have hy : ∀ i, yoy_pct [100000, 105000, 110000] i = none := by
    intro i
    simp only [yoy_pct, lag]
    rcases i with _ | _ | _ | i <;> simp [pctVs, List.get?]
  have hz1 : zscoreSq [100000, 105000, 110000] 1 = none := by
    simp [zscoreSq, h16, sampleVarOpt, List.get?]
  refine ⟨?_, ?_, ?_, hz2⟩
  · simp [detection_reason, absGe, zFires, hy 0, zscoreSq, h0, sampleVarOpt,
      avgOpt, rolling_pct, rolling_3m_avg, frameRows, pctVs, List.get?]
  · simp [detection_reason, absGe, zFires, hy 1, hr1, hz1]
    norm_num
  · have hrabs : absGe (rolling_pct [100000, 105000, 110000] 2) 25 = false := by
      rw [hr2]
      simp only [absGe, decide_eq_false_iff_not]
      rw [abs_of_nonneg (by norm_num : (0 : ℚ) ≤ 1500 / 205)]
      norm_num
    have hz4 : zFires (zscoreSq [100000, 105000, 110000] 2) = true := by
      rw [hz2]
      simp only [zFires, decide_eq_true_eq]
      norm_num
    simp [detection_reason, hy 2, hrabs, hz4, absGe_none]

/-- Claim C7: detection is antitone in the thresholds — with the pair of
thresholds both set to `T1 ≤ T2`, every row flagged under `T2` is also
flagged under `T1`, so the flagged set under the smaller threshold is a
superset. -/
theorem detection_threshold_monotone (T1 T2 : ℚ) (h : T1 ≤ T2)
    (vs : List ℚ) (i : ℕ) (hf : fires T2 T2 vs i = true) :
    fires T1 T1 vs i = true := by
  have mono : ∀ o : Option ℚ, absGe o T2 = true → absGe o T1 = true := by
    intro o ho
    rcases (absGe_iff o T2).mp ho with ⟨x, hx, hle⟩
    exact (absGe_iff o T1).mpr ⟨x, hx, le_trans h hle⟩
  rcases ((detection_reason_cases T2 T2 vs i).1.mp hf) with hy | hr | hz
  · exact (detection_reason_cases T1 T1 vs i).1.mpr (Or.inl (mono _ hy))
  · exact (detection_reason_cases T1 T1 vs i).1.mpr (Or.inr (Or.inl (mono _ hr)))
  · exact (detection_reason_cases T1 T1 vs i).1.mpr (Or.inr (Or.inr hz))

/-- Witness for C7 at a concrete input: the series `[100, 200]` fires at
row 1 under thresholds 30/30 (rolling deviation 100% ≥ 30), hence by
monotonicity also under 10/10. -/
theorem detection_threshold_monotone_witness :
    (10 : ℚ) ≤ 30 ∧ fires 10 10 [100, 200] 1 = true := by
  have hroll : rolling_pct [100, 200] 1 = some 100 := by
    have hf13 : frameRows [100, 200] 1 3 = [100] := rfl
    simp only [rolling_pct, rolling_3m_avg, hf13, avgOpt, pctVs, List.get?]
    norm_num
  have hfire : fires 30 30 [100, 200] 1 = true := by
    refine (detection_reason_cases 30 30 [100, 200] 1).1.mpr (Or.inr (Or.inl ?_))
    rw [absGe_iff]
    exact ⟨100, hroll, by norm_num⟩
  exact ⟨by norm_num, detection_threshold_monotone 10 30 (by norm_num) [100, 200] 1 hfire⟩

lemma selectLoop_proj (total : ℚ) (top_n : ℕ) (θ : ℚ) :
    ∀ (rest : List LabeledAmount) (k : ℕ) (cum : ℚ),
      (selectLoop total top_n θ rest k cum).map toLA <+: rest
  | [], _, _ => by simp [selectLoop]
  | c :: rest, k, cum => by
    rw [selectLoop]
    split
    · exact List.nil_prefix
    · split
      · exact List.cons_prefix_cons.mpr ⟨rfl, List.nil_prefix⟩
      · exact List.cons_prefix_cons.mpr ⟨rfl, selectLoop_proj total top_n θ rest (k + 1) _⟩

lemma selectLoop_length (total : ℚ) (top_n : ℕ) (θ : ℚ) :
    ∀ (rest : List LabeledAmount) (k : ℕ),
      ∀ cum, (selectLoop total top_n θ rest k cum).length ≤ top_n - k
  | [], _ => by simp [selectLoop]
  | c :: rest, k => by
    intro cum
    rw [selectLoop]
    split
    · simp
    · split
      · simpa using by omega
      · have ih := selectLoop_length total top_n θ rest (k + 1) (cum + |c.total_amount| / total)
        simp only [List.length_cons]
        omega

lemma selectLoop_share (total : ℚ) (top_n : ℕ) (θ : ℚ) :
    ∀ (rest : List LabeledAmount) (k : ℕ) (cum : ℚ),
      ∀ s ∈ selectLoop total top_n θ rest k cum,
        s.share_of_total = |s.amount| / total
  | [], _, _ => by simp [selectLoop]
  | c :: rest, k, cum => by
    intro s hs
    rw [selectLoop] at hs
    split at hs
    · simp at hs
    · split at hs
      · simp at hs
        subst hs
        rfl
      · rcases List.mem_cons.mp hs with h | h
        · subst h
          rfl
        · exact selectLoop_share total top_n θ rest (k + 1) _ s h

/-- The loop stops exactly when one of its exit conditions is reached:
`top_n` entries selected, the coverage threshold reached, or the fetched
rows exhausted. -/
lemma selectLoop_stop (total : ℚ) (top_n : ℕ) (θ : ℚ) :
    ∀ (rest : List LabeledAmount) (k : ℕ) (cum : ℚ), k ≤ top_n →
      (selectLoop total top_n θ rest k cum).length + k = top_n ∨
      θ ≤ cum + cumShare (selectLoop total top_n θ rest k cum) ∨
      (selectLoop total top_n θ rest k cum).map toLA = rest
  | [], _, _ => by simp [selectLoop]
  | c :: rest, k, cum => by
    intro hk
    rw [selectLoop]
    split
    · left
      simpa using by omega
    · split
      · right; left
        simpa [cumShare] using by assumption
      · rcases selectLoop_stop total top_n θ rest (k + 1)
          (cum + |c.total_amount| / total) (by omega) with h | h | h
        · left
          simp only [List.length_cons]
          omega
        · right; left
          simp only [cumShare, List.map_cons, List.sum_cons] at h ⊢
          linarith
        · right; right
          simp [toLA, h]

/-- Minimality of the selection: every proper stage of the loop had
filled fewer than `top_n` slots and had cumulative share strictly below
the threshold. -/
lemma selectLoop_minimal (total : ℚ) (top_n : ℕ) (θ : ℚ) :
    ∀ (rest : List LabeledAmount) (k : ℕ) (cum : ℚ), cum < θ →
      ∀ j < (selectLoop total top_n θ rest k cum).length,
        j + k < top_n ∧
        cum + cumShare ((selectLoop total top_n θ rest k cum).take j) < θ
  | [], _, _ => by simp [selectLoop]
  | c :: rest, k, cum => by
    intro hcum j hj
    rw [selectLoop] at hj ⊢
    by_cases hkn : top_n ≤ k
    · rw [if_pos hkn] at hj
      simp at hj
    · rw [if_neg hkn] at hj ⊢
      by_cases hth : θ ≤ cum + |c.total_amount| / total
      · rw [if_pos hth] at hj ⊢
        have : j = 0 := by simpa using hj
        subst this
        exact ⟨by omega, by simpa [cumShare] using hcum⟩
      · rw [if_neg hth] at hj ⊢
        match j with
        | 0 => exact ⟨by omega, by simpa [cumShare] using hcum⟩
        | j + 1 =>
          simp only [List.length_cons, Nat.add_lt_add_iff_right] at hj
          have ih := selectLoop_minimal total top_n θ rest (k + 1)
            (cum + |c.total_amount| / total) (by linarith [not_le.mp hth]) j hj
          refine ⟨by omega, ?_⟩
          simp only [List.take_succ_cons, cumShare, List.map_cons, List.sum_cons] at ih ⊢
          linarith [ih.2]

/-- On a descending-|amount|-sorted row list whose shares sum (with
`cum`) to exactly 1, the loop (entered with `cum < θ ≤ 1`) only selects
rows with strictly positive share, and its cumulative share stays within
the remaining budget `1 - cum`. -/
lemma selectLoop_bounded (total : ℚ) (top_n : ℕ) (θ : ℚ) (hθ1 : θ ≤ 1) (hT : 0 < total) :
    ∀ (rest : List LabeledAmount) (k : ℕ) (cum : ℚ),
      List.Sorted contribOrder rest →
      cum + ((rest.map (fun c => |c.total_amount| / total)).sum) = 1 →
      0 ≤ cum → cum < θ →
      (∀ s ∈ selectLoop total top_n θ rest k cum, 0 < s.share_of_total) ∧
      cum + cumShare (selectLoop total top_n θ rest k cum) ≤ 1
  | [], _, _ => by
    intro _ hsum _ hlt
    simp only [selectLoop, cumShare, List.map_nil, List.sum_nil, add_zero]
    exact ⟨by simp, by linarith⟩
  | c :: rest, k, cum => by
    intro hsorted hsum hcum0 hcum
    have hrest := (List.sorted_cons.mp hsorted).2
    have hhead := (List.sorted_cons.mp hsorted).1
    have hcpos : 0 < |c.total_amount| := by
      rcases lt_or_eq_of_le (abs_nonneg c.total_amount) with h | h
      · exact h
      · exfalso
        have hall : ∀ d ∈ c :: rest, |d.total_amount| / total = 0 := by
          intro d hd
          rcases List.mem_cons.mp hd with rfl | hd
          · rw [← h]
            exact zero_div _
          · have := hhead d hd
            have : |d.total_amount| = 0 := le_antisymm (h ▸ this) (abs_nonneg _)
            rw [this]
            simp
        have : ((c :: rest).map (fun d => |d.total_amount| / total)).sum = 0 := by
          apply List.sum_eq_zero
          intro x hx
          rcases List.mem_map.mp hx with ⟨d, hd, rfl⟩
          exact hall d hd
        rw [this] at hsum
        linarith
    have hsharepos : 0 < |c.total_amount| / total := div_pos hcpos hT
    have hrestsum : ∀ x ∈ rest.map (fun c => |c.total_amount| / total), 0 ≤ x := by
      intro x hx
      rcases List.mem_map.mp hx with ⟨d, _, rfl⟩
      exact div_nonneg (abs_nonneg _) (le_of_lt hT)
    rw [selectLoop]
    split
    · simp only [cumShare, List.map_nil, List.sum_nil, add_zero]
      exact ⟨by simp, by linarith⟩
    · split
      · refine ⟨by intro s hs; simp at hs; subst hs; exact hsharepos, ?_⟩
        simp only [cumShare, List.map_cons, List.map_nil, List.sum_cons, List.sum_nil, add_zero]
        have : (rest.map (fun c => |c.total_amount| / total)).sum ≥ 0 :=
          List.sum_nonneg hrestsum
        simp only [List.map_cons, List.sum_cons] at hsum
        linarith
      · rename_i hth
        have ih := selectLoop_bounded total top_n θ hθ1 hT rest (k + 1)
          (cum + |c.total_amount| / total) hrest
          (by simp only [List.map_cons, List.sum_cons] at hsum; linarith)
          (by linarith) (not_le.mp hth)
        constructor
        · intro s hs
          rcases List.mem_cons.mp hs with rfl | hs
          · exact hsharepos
          · exact ih.1 s hs
        · simp only [cumShare, List.map_cons, List.sum_cons] at ih ⊢
          linarith [ih.2]

lemma sum_map_div (l : List ℚ) (T : ℚ) : (l.map (· / T)).sum = l.sum / T := by
  induction l with
  | nil => simp
  | cons a t ih => simp [ih, add_div]

lemma totalAbs_nonneg (l : List LabeledAmount) : 0 ≤ totalAbs l := by
  apply List.sum_nonneg
  intro x hx
  rcases List.mem_map.mp hx with ⟨c, _, rfl⟩
  exact abs_nonneg _

lemma fetch_sorted (allLabels : List LabeledAmount) (top_n : ℕ) :
    List.Sorted contribOrder (fetchContributors allLabels top_n) :=
  List.Pairwise.sublist (List.take_sublist _ _)
    (List.sorted_insertionSort contribOrder allLabels)

lemma fetch_shares_sum (allLabels : List LabeledAmount) (top_n : ℕ)
    (hT : totalAbs (fetchContributors allLabels top_n) ≠ 0) :
    (0 : ℚ) + (((fetchContributors allLabels top_n).map
      (fun c => |c.total_amount| / totalAbs (fetchContributors allLabels top_n))).sum) = 1 := by
  rw [zero_add]
  have : ((fetchContributors allLabels top_n).map
      (fun c => |c.total_amount| / totalAbs (fetchContributors allLabels top_n))) =
      (((fetchContributors allLabels top_n).map (fun c => |c.total_amount|)).map
        (· / totalAbs (fetchContributors allLabels top_n))) := by
    rw [List.map_map]
    rfl
  rw [this, sum_map_div]
  exact div_self hT

lemma computeSelected_eq_loop (allLabels : List LabeledAmount) (top_n : ℕ) (θ : ℚ)
    (hT : totalAbs (fetchContributors allLabels top_n) ≠ 0) :
    computeSelected allLabels top_n θ =
      selectLoop (totalAbs (fetchContributors allLabels top_n)) top_n θ
        (fetchContributors allLabels top_n) 0 0 := by
  have hfe : (fetchContributors allLabels top_n).isEmpty = false := by
    rcases h : fetchContributors allLabels top_n with _ | ⟨c, rest⟩
    · exfalso
      apply hT
      rw [h]
      rfl
    · rfl
  unfold computeSelected
  rw [if_neg (by simp [hfe]), if_neg hT]

/-- Claim C9: every contributor row `compute_contributors_for_anomaly`
inserts (for a coverage threshold in `(0, 1]`, as the default 0.8 is)
has `share_of_total` strictly positive and at most 1; in particular a
label whose summed amount is 0 is never inserted, and the cumulative
share of the inserted set never exceeds 1. -/
theorem contributor_shares_in_unit_interval (allLabels : List LabeledAmount)
    (top_n : ℕ) (θ : ℚ) (hθ0 : 0 < θ) (hθ1 : θ ≤ 1) :
    (∀ s ∈ computeSelected allLabels top_n θ,
        0 < s.share_of_total ∧ s.share_of_total ≤ 1 ∧ s.amount ≠ 0) ∧
    cumShare (computeSelected allLabels top_n θ) ≤ 1 := by
  by_cases hT : totalAbs (fetchContributors allLabels top_n) = 0
  · have : computeSelected allLabels top_n θ = [] := by
      simp only [computeSelected]
      split <;> rfl
    rw [this]
    simp [cumShare]
  · have hTpos : 0 < totalAbs (fetchContributors allLabels top_n) :=
      lt_of_le_of_ne (totalAbs_nonneg _) (Ne.symm hT)
    rw [computeSelected_eq_loop allLabels top_n θ hT]
    have hb := selectLoop_bounded (totalAbs (fetchContributors allLabels top_n)) top_n θ
      hθ1 hTpos (fetchContributors allLabels top_n) 0 0
      (fetch_sorted allLabels top_n) (fetch_shares_sum allLabels top_n hT) le_rfl hθ0
    have hsum := hb.2
    rw [zero_add] at hsum
    have hshape := selectLoop_share (totalAbs (fetchContributors allLabels top_n)) top_n θ
      (fetchContributors allLabels top_n) 0 0
    refine ⟨fun s hs => ⟨hb.1 s hs, ?_, ?_⟩, hsum⟩
    · have hmem : s.share_of_total ∈ (selectLoop (totalAbs (fetchContributors allLabels top_n))
          top_n θ (fetchContributors allLabels top_n) 0 0).map (fun s => s.share_of_total) :=
        List.mem_map.mpr ⟨s, hs, rfl⟩
      have hnn : ∀ x ∈ (selectLoop (totalAbs (fetchContributors allLabels top_n))
          top_n θ (fetchContributors allLabels top_n) 0 0).map (fun s => s.share_of_total),
          0 ≤ x := by
        intro x hx
        rcases List.mem_map.mp hx with ⟨s', hs', rfl⟩
        rw [hshape s' hs']
        exact div_nonneg (abs_nonneg _) (le_of_lt hTpos)
      exact le_trans (List.single_le_sum hnn _ hmem) hsum
    · intro hzero
      have h1 := hshape s hs
      rw [hzero] at h1
      simp at h1
      have h2 := hb.1 s hs
      rw [h1] at h2
      exact lt_irrefl 0 h2

/-- Witness for C9 at the spec's coverage example, with the default
thresholds. -/
theorem contributor_shares_in_unit_interval_witness :
    (0 : ℚ) < 4 / 5 ∧ (4 : ℚ) / 5 ≤ 1 ∧
    ((∀ s ∈ computeSelected [⟨"Alpha", 50000⟩, ⟨"Beta", 30000⟩, ⟨"Gamma", 15000⟩,
          ⟨"Delta", 5000⟩] 10 (4 / 5),
        0 < s.share_of_total ∧ s.share_of_total ≤ 1 ∧ s.amount ≠ 0) ∧
      cumShare (computeSelected [⟨"Alpha", 50000⟩, ⟨"Beta", 30000⟩, ⟨"Gamma", 15000⟩,
          ⟨"Delta", 5000⟩] 10 (4 / 5)) ≤ 1) :=
  ⟨by norm_num, by norm_num,
    contributor_shares_in_unit_interval _ 10 (4 / 5) (by norm_num) (by norm_num)⟩

lemma selectLoop_cons (total : ℚ) (top_n : ℕ) (θ : ℚ) (c : LabeledAmount)
    (rest : List LabeledAmount) (k : ℕ) (cum : ℚ) (hk : k < top_n) :
    ∃ tl, selectLoop total top_n θ (c :: rest) k cum =
      ⟨c.label, c.total_amount, |c.total_amount| / total⟩ :: tl := by
  rw [selectLoop, if_neg (not_le.mpr hk)]
  split
  · exact ⟨[], rfl⟩
  · exact ⟨_, rfl⟩

lemma insertionSort_head_max (allLabels : List LabeledAmount) (hd : LabeledAmount)
    (tl : List LabeledAmount)
    (heq : allLabels.insertionSort contribOrder = hd :: tl) :
    ∀ c ∈ allLabels, |c.total_amount| ≤ |hd.total_amount| := by
  intro c hc
  have hmem : c ∈ allLabels.insertionSort contribOrder :=
    (List.mem_insertionSort contribOrder).mpr hc
  rw [heq] at hmem
  rcases List.mem_cons.mp hmem with rfl | hmem
  · exact le_refl _
  · have hsorted : List.Sorted contribOrder (hd :: tl) :=
      heq ▸ List.sorted_insertionSort contribOrder allLabels
    exact (List.sorted_cons.mp hsorted).1 c hmem

/-- Claim C10: whenever at least one grouped label has nonzero summed
amount (and `top_n ≥ 1`, as the default 10 is),
`compute_contributors_for_anomaly` inserts at least one contributor row;
it never inserts more than `top_n`; the inserted rows are an initial
segment of the fetched labels in descending absolute-amount order; and
the first inserted row carries a maximal absolute summed amount among
all grouped labels — it is inserted even if its share alone already
meets the coverage threshold. -/
theorem top_contributor_always_selected (allLabels : List LabeledAmount)
    (top_n : ℕ) (θ : ℚ) (htop : 1 ≤ top_n)
    (hex : ∃ c ∈ allLabels, c.total_amount ≠ 0) :
    computeSelected allLabels top_n θ ≠ [] ∧
    (computeSelected allLabels top_n θ).length ≤ top_n ∧
    (computeSelected allLabels top_n θ).map toLA <+: fetchContributors allLabels top_n ∧
    ∀ c ∈ allLabels, ∀ s ∈ (computeSelected allLabels top_n θ).take 1,
      |c.total_amount| ≤ |s.amount| := by
  rcases hex with ⟨c0, hc0mem, hc0ne⟩
  have hc0sorted : c0 ∈ allLabels.insertionSort contribOrder :=
    (List.mem_insertionSort contribOrder).mpr hc0mem
  rcases hsrt : allLabels.insertionSort contribOrder with _ | ⟨hd, tl⟩
  · rw [hsrt] at hc0sorted
    simp at hc0sorted
  · have hmax : ∀ c ∈ allLabels, |c.total_amount| ≤ |hd.total_amount| :=
      insertionSort_head_max allLabels hd tl hsrt
    have hhdpos : 0 < |hd.total_amount| :=
      lt_of_lt_of_le (abs_pos.mpr hc0ne) (hmax c0 hc0mem)
    obtain ⟨m, hm⟩ : ∃ m, top_n * 2 = m + 1 := ⟨top_n * 2 - 1, by omega⟩
    have hfetch : fetchContributors allLabels top_n = hd :: tl.take m := by
      rw [fetchContributors, hsrt, hm, List.take_succ_cons]
    have hT : totalAbs (fetchContributors allLabels top_n) ≠ 0 := by
      rw [hfetch]
      have : totalAbs (hd :: tl.take m) = |hd.total_amount| + totalAbs (tl.take m) := by
        simp [totalAbs]
      rw [this]
      have := totalAbs_nonneg (tl.take m)
      intro h
      linarith
    have hloop := computeSelected_eq_loop allLabels top_n θ hT
    rcases selectLoop_cons (totalAbs (fetchContributors allLabels top_n)) top_n θ hd
      (tl.take m) 0 0 (by omega) with ⟨tl', htl'⟩
    have hsel : computeSelected allLabels top_n θ =
        (⟨hd.label, hd.total_amount,
          |hd.total_amount| / totalAbs (fetchContributors allLabels top_n)⟩ : Contributor)
          :: tl' := by
      rw [hloop, hfetch] at *
      exact htl'
    refine ⟨by rw [hsel]; exact List.cons_ne_nil _ _, ?_, ?_, ?_⟩
    · have := selectLoop_length (totalAbs (fetchContributors allLabels top_n)) top_n θ
        (fetchContributors allLabels top_n) 0 0
      rw [← hloop] at this
      omega
    · have := selectLoop_proj (totalAbs (fetchContributors allLabels top_n)) top_n θ
        (fetchContributors allLabels top_n) 0 0
      rw [← hloop] at this
      exact this
    · intro c hc s hs
      rw [hsel, List.take_succ_cons, List.take_zero] at hs
      rcases List.mem_singleton.mp hs with rfl
      exact hmax c hc

/-- Witness for C10 at the spec's coverage example with default
parameters. -/
theorem top_contributor_always_selected_witness :
    (1 : ℕ) ≤ 10 ∧
    (computeSelected [⟨"Alpha", 50000⟩, ⟨"Beta", 30000⟩, ⟨"Gamma", 15000⟩,
        ⟨"Delta", 5000⟩] 10 (4 / 5) ≠ [] ∧
      (computeSelected [⟨"Alpha", 50000⟩, ⟨"Beta", 30000⟩, ⟨"Gamma", 15000⟩,
        ⟨"Delta", 5000⟩] 10 (4 / 5)).length ≤ 10 ∧
      (computeSelected [⟨"Alpha", 50000⟩, ⟨"Beta", 30000⟩, ⟨"Gamma", 15000⟩,
        ⟨"Delta", 5000⟩] 10 (4 / 5)).map toLA <+:
        fetchContributors [⟨"Alpha", 50000⟩, ⟨"Beta", 30000⟩, ⟨"Gamma", 15000⟩,
          ⟨"Delta", 5000⟩] 10 ∧
      ∀ c ∈ [⟨"Alpha", (50000 : ℚ)⟩, ⟨"Beta", 30000⟩, ⟨"Gamma", 15000⟩,
          (⟨"Delta", 5000⟩ : LabeledAmount)],
        ∀ s ∈ (computeSelected [⟨"Alpha", 50000⟩, ⟨"Beta", 30000⟩, ⟨"Gamma", 15000⟩,
          ⟨"Delta", 5000⟩] 10 (4 / 5)).take 1, |c.total_amount| ≤ |s.amount|) :=
  ⟨by norm_num,
    top_contributor_always_selected _ 10 (4 / 5) (by norm_num)
      ⟨⟨"Alpha", 50000⟩, by simp, by norm_num⟩⟩

lemma sort3_eval :
    ([⟨"A", (4 : ℚ)⟩, ⟨"B", 2⟩, ⟨"C", 2⟩] : List LabeledAmount).insertionSort contribOrder
      = [⟨"A", 4⟩, ⟨"B", 2⟩, ⟨"C", 2⟩] := by
  norm_num [List.insertionSort, List.orderedInsert, contribOrder]

/-- Claim C3 counterexample: with three grouped labels of summed amounts
4, 2, 2 and `top_n = 1`, the fetched rows are only the top
`top_n * 2 = 2` labels, so the stored share of the top label is
`4 / (4 + 2) = 2/3` — not `4 / (4 + 2 + 2) = 1/2`, the value the claim's
"sum over ALL matching labels" denominator prescribes. -/
theorem coverage_share_denominator_counterexample :
    computeSelected [⟨"A", 4⟩, ⟨"B", 2⟩, ⟨"C", 2⟩] 1 (4 / 5) = [⟨"A", 4, 2 / 3⟩] ∧
    totalAbs [⟨"A", 4⟩, ⟨"B", 2⟩, ⟨"C", 2⟩] = 8 ∧
    ((2 : ℚ) / 3) ≠ |(4 : ℚ)| / 8 := by
  have hfetch : fetchContributors [⟨"A", (4 : ℚ)⟩, ⟨"B", 2⟩, ⟨"C", 2⟩] 1 =
      [⟨"A", 4⟩, ⟨"B", 2⟩] := by
    rw [fetchContributors, sort3_eval]
    rfl
  have hTv : totalAbs [⟨"A", (4 : ℚ)⟩, ⟨"B", 2⟩] = 6 := by
    norm_num [totalAbs]
  refine ⟨?_, by norm_num [totalAbs], by rw [abs_of_nonneg] <;> norm_num⟩
  rw [computeSelected_eq_loop _ _ _ (by rw [hfetch, hTv]; norm_num), hfetch, hTv]
  rw [selectLoop, if_neg (by norm_num), if_neg (by norm_num)]
  rw [selectLoop, if_pos (le_refl 1)]
  norm_num

/-- Claim C3 (amended): each stored share equals the label's absolute
summed amount divided by the total over the FETCHED labels (the top
`top_n * 2` by descending absolute amount — equal to the all-label total
only when at most `top_n * 2` labels match); the stored rows are an
initial segment of the fetched descending order; and accumulation stops
exactly when the cumulative share reaches the threshold, the count
reaches `top_n`, or the fetched rows are exhausted — whichever comes
first. -/
theorem coverage_selection_characterization (allLabels : List LabeledAmount)
    (top_n : ℕ) (θ : ℚ)
    (hT : totalAbs (fetchContributors allLabels top_n) ≠ 0) (hθ : 0 < θ) :
    (∀ s ∈ computeSelected allLabels top_n θ,
        s.share_of_total = |s.amount| / totalAbs (fetchContributors allLabels top_n)) ∧
    (computeSelected allLabels top_n θ).map toLA <+: fetchContributors allLabels top_n ∧
    ((computeSelected allLabels top_n θ).length = top_n ∨
      θ ≤ cumShare (computeSelected allLabels top_n θ) ∨
      (computeSelected allLabels top_n θ).map toLA = fetchContributors allLabels top_n) ∧
    ∀ j < (computeSelected allLabels top_n θ).length,
      j < top_n ∧ cumShare ((computeSelected allLabels top_n θ).take j) < θ := by
  rw [computeSelected_eq_loop allLabels top_n θ hT]
  refine ⟨selectLoop_share _ _ _ _ _ _, selectLoop_proj _ _ _ _ _ _, ?_, ?_⟩
  · have h := selectLoop_stop (totalAbs (fetchContributors allLabels top_n)) top_n θ
      (fetchContributors allLabels top_n) 0 0 (Nat.zero_le _)
    simpa using h
  · intro j hj
    have h := selectLoop_minimal (totalAbs (fetchContributors allLabels top_n)) top_n θ
      (fetchContributors allLabels top_n) 0 0 hθ j hj
    simpa using h

lemma sort4_eval :
    ([⟨"Alpha", (50000 : ℚ)⟩, ⟨"Beta", 30000⟩, ⟨"Gamma", 15000⟩,
        ⟨"Delta", 5000⟩] : List LabeledAmount).insertionSort contribOrder
      = [⟨"Alpha", 50000⟩, ⟨"Beta", 30000⟩, ⟨"Gamma", 15000⟩, ⟨"Delta", 5000⟩] := by
  norm_num [List.insertionSort, List.orderedInsert, contribOrder]

/-- Witness for the amended C3 at the spec's coverage example
`[50000, 30000, 15000, 5000]` with the default parameters. -/
theorem coverage_selection_characterization_witness :
    totalAbs (fetchContributors [⟨"Alpha", 50000⟩, ⟨"Beta", 30000⟩, ⟨"Gamma", 15000⟩,
        ⟨"Delta", 5000⟩] 10) ≠ 0 ∧
    ((∀ s ∈ computeSelected [⟨"Alpha", 50000⟩, ⟨"Beta", 30000⟩, ⟨"Gamma", 15000⟩,
          ⟨"Delta", 5000⟩] 10 (4 / 5),
        s.share_of_total = |s.amount| / totalAbs (fetchContributors
          [⟨"Alpha", 50000⟩, ⟨"Beta", 30000⟩, ⟨"Gamma", 15000⟩, ⟨"Delta", 5000⟩] 10)) ∧
      (computeSelected [⟨"Alpha", 50000⟩, ⟨"Beta", 30000⟩, ⟨"Gamma", 15000⟩,
          ⟨"Delta", 5000⟩] 10 (4 / 5)).map toLA <+:
        fetchContributors [⟨"Alpha", 50000⟩, ⟨"Beta", 30000⟩, ⟨"Gamma", 15000⟩,
          ⟨"Delta", 5000⟩] 10 ∧
      ((computeSelected [⟨"Alpha", 50000⟩, ⟨"Beta", 30000⟩, ⟨"Gamma", 15000⟩,
          ⟨"Delta", 5000⟩] 10 (4 / 5)).length = 10 ∨
        (4 : ℚ) / 5 ≤ cumShare (computeSelected [⟨"Alpha", 50000⟩, ⟨"Beta", 30000⟩,
          ⟨"Gamma", 15000⟩, ⟨"Delta", 5000⟩] 10 (4 / 5)) ∨
        (computeSelected [⟨"Alpha", 50000⟩, ⟨"Beta", 30000⟩, ⟨"Gamma", 15000⟩,
          ⟨"Delta", 5000⟩] 10 (4 / 5)).map toLA =
          fetchContributors [⟨"Alpha", 50000⟩, ⟨"Beta", 30000⟩, ⟨"Gamma", 15000⟩,
            ⟨"Delta", 5000⟩] 10) ∧
      ∀ j < (computeSelected [⟨"Alpha", 50000⟩, ⟨"Beta", 30000⟩, ⟨"Gamma", 15000⟩,
          ⟨"Delta", 5000⟩] 10 (4 / 5)).length,
        j < 10 ∧ cumShare ((computeSelected [⟨"Alpha", 50000⟩, ⟨"Beta", 30000⟩,
          ⟨"Gamma", 15000⟩, ⟨"Delta", 5000⟩] 10 (4 / 5)).take j) < 4 / 5) := by
  have hT : totalAbs (fetchContributors [⟨"Alpha", 50000⟩, ⟨"Beta", 30000⟩,
      ⟨"Gamma", 15000⟩, ⟨"Delta", 5000⟩] 10) ≠ 0 := by
    rw [fetchContributors, sort4_eval]
    norm_num [totalAbs]
  exact ⟨hT, coverage_selection_characterization _ 10 (4 / 5) hT (by norm_num)⟩

/-- Claim C5 counterexample: when the grouped-label query returns no
rows, `compute_contributors_for_anomaly` takes the early `return 0`
BEFORE the `DELETE`, so a previously stored contributor row survives
even though the newly computed set is empty — the stored set is NOT
"exactly the newly computed set". -/
theorem replace_semantics_counterexample :
    computeSelected [] 10 (4 / 5) = [] ∧
    runAttribution [⟨"stale", 5, 1 / 2⟩] [] 10 (4 / 5) = [⟨"stale", 5, 1 / 2⟩] ∧
    ([⟨"stale", 5, 1 / 2⟩] : List Contributor) ≠ [] :=
  ⟨rfl, rfl, by simp⟩

/-- Claim C5 (amended): when the grouped-label query returns at least
one row with nonzero total absolute amount, the run fully replaces the
stored set — the post-state equals the newly computed set, independent
of the previously stored rows; on the early-return paths (no rows, or
zero total) nothing is deleted and the previously stored rows remain. -/
theorem replace_semantics (old : List Contributor) (allLabels : List LabeledAmount)
    (top_n : ℕ) (θ : ℚ) :
    (totalAbs (fetchContributors allLabels top_n) ≠ 0 →
      runAttribution old allLabels top_n θ = computeSelected allLabels top_n θ) ∧
    ((fetchContributors allLabels top_n).isEmpty = true ∨
        totalAbs (fetchContributors allLabels top_n) = 0 →
      runAttribution old allLabels top_n θ = old) := by
  constructor
  · intro hT
    have hfe : (fetchContributors allLabels top_n).isEmpty = false := by
      rcases h : fetchContributors allLabels top_n with _ | ⟨c, rest⟩
      · exact absurd (by rw [h]; rfl) hT
      · rfl
    rw [computeSelected_eq_loop allLabels top_n θ hT]
    simp only [runAttribution]
    rw [if_neg (by simp [hfe]), if_neg hT]
  · intro h
    simp only [runAttribution]
    by_cases hfe : (fetchContributors allLabels top_n).isEmpty = true
    · rw [if_pos hfe]
    · rcases h with h | h
      · exact absurd h hfe
      · rw [if_neg hfe, if_pos h]

/-- Witness for the amended C5: with one nonzero grouped label, the
post-state equals the newly computed set regardless of the stale stored
row. -/
theorem replace_semantics_witness :
    runAttribution [⟨"stale", 5, 1 / 2⟩] [⟨"Alpha", 50000⟩] 10 (4 / 5) =
      computeSelected [⟨"Alpha", 50000⟩] 10 (4 / 5) :=
  (replace_semantics [⟨"stale", 5, 1 / 2⟩] [⟨"Alpha", 50000⟩] 10 (4 / 5)).1
    (by norm_num [fetchContributors, List.insertionSort, List.orderedInsert, totalAbs])

/-- Claim C4 counterexample: a company with one transaction in month 1
(`account_code 2.5.2`, name `Advisory`) has transactions that month, but
none matches the `net_sales` selector; `compute_single_metric` produces
NO `net_sales` group for month 1, and after a full aggregator run on an
empty store there is no (`net_sales`, month 1) row at all — not a row
with value 0. -/
theorem zero_matching_month_counterexample :
    (∃ t ∈ [(⟨1, "2.5.2", "Advisory", "DANISMANLIK", 5⟩ : Transaction)], t.month = 1) ∧
    (∀ t ∈ [(⟨1, "2.5.2", "Advisory", "DANISMANLIK", 5⟩ : Transaction)],
      net_sales_filter t = false) ∧
    compute_single_metric_rows [⟨1, "2.5.2", "Advisory", "DANISMANLIK", 5⟩]
      net_sales_filter = [] ∧
    lookupKpi (aggregatorRun [] [⟨1, "2.5.2", "Advisory", "DANISMANLIK", 5⟩])
      ("net_sales", 1) = none := by
  refine ⟨⟨_, List.mem_singleton.mpr rfl, rfl⟩, ?_, rfl, rfl⟩
  intro t ht
  rw [List.mem_singleton.mp ht]
  rfl

/-- Claim C4 (amended): `compute_single_metric` produces a row for
(metric, month) exactly when at least one transaction of that month
matches the selector, and then the row's value is the sum of the
matching transactions' amounts (0 only when nonempty matches cancel); a
month whose transactions all fail the selector yields no row. -/
theorem single_metric_row_iff (txs : List Transaction) (sel : Transaction → Bool)
    (m : ℕ) (v : ℚ) :
    (m, v) ∈ compute_single_metric_rows txs sel ↔
      ((∃ t ∈ txs, sel t = true ∧ t.month = m) ∧
        v = ((txs.filter (fun t => sel t && t.month == m)).map (fun t => t.amount)).sum) := by
  have hcomm : ∀ m' : ℕ, txs.filter (fun a => (a.month == m') && sel a) =
      txs.filter (fun t => sel t && (t.month == m')) := by
    intro m'
    apply List.filter_congr
    intro x _
    rw [Bool.and_comm]
  simp only [compute_single_metric_rows, List.mem_map, List.mem_dedup]
  constructor
  · rintro ⟨m', ⟨t, htmem, htm⟩, heq⟩
    have hmm : m' = m := congrArg Prod.fst heq
    subst hmm
    have hv : v =
        (((txs.filter sel).filter (fun t => t.month == m')).map (fun t => t.amount)).sum :=
      (congrArg Prod.snd heq).symm
    subst hv
    rcases List.mem_filter.mp htmem with ⟨htxs, hsel⟩
    refine ⟨⟨t, htxs, hsel, htm⟩, ?_⟩
    rw [List.filter_filter, hcomm]
  · rintro ⟨⟨t, htxs, hsel, htm⟩, rfl⟩
    refine ⟨m, ⟨t, List.mem_filter.mpr ⟨htxs, hsel⟩, htm⟩, ?_⟩
    rw [List.filter_filter, hcomm]

/-- Claim C6 counterexample: with three units of which the second
raises, `compute_monthly_kpis` aborts with the exception (no partial
success count), while `compute_contributors_for_company` on the same
units continues and returns the partial count 2. -/
theorem per_unit_isolation_counterexample :
    compute_monthly_kpis_exc
      (fun n => if n = 1 then Except.error "boom" else Except.ok 1) [0, 1, 2] =
      Except.error "boom" ∧
    compute_contributors_for_company_exc
      (fun n => if n = 1 then Except.error "boom" else Except.ok 1) [0, 1, 2] = 2 :=
  ⟨rfl, rfl⟩

/-- Claim C6 (amended): only `compute_contributors_for_company` isolates
per-unit errors — it always returns the sum of the successful units'
counts, a failing unit contributing 0 — whereas `compute_monthly_kpis`
succeeds exactly when every metric's computation succeeds (one failing
metric aborts the whole batch instead of yielding a partial count). -/
theorem batch_error_semantics {α ι ε : Type} (f : α → Except ε ℕ) (g : ι → Except ε ℕ)
    (ds : List α) (ids : List ι) :
    compute_contributors_for_company_exc g ids =
      ((ids.map g).map (fun r =>
        match r with
        | Except.ok c => c
        | Except.error _ => 0)).sum ∧
    ((compute_monthly_kpis_exc f ds).isOk = true ↔ ∀ d ∈ ds, (f d).isOk = true) := by
  constructor
  · induction ids with
    | nil => rfl
    | cons i rest ih =>
      simp only [compute_contributors_for_company_exc, List.map_cons, List.sum_cons, ih]
  · induction ds with
    | nil => simp [compute_monthly_kpis_exc, Except.isOk, Except.toBool]
    | cons d rest ih =>
      rw [compute_monthly_kpis_exc]
      cases hd : f d with
      | error e => simp [hd, Except.isOk, Except.toBool]
      | ok c =>
        cases hrec : compute_monthly_kpis_exc f rest with
        | error e =>
          rw [hrec] at ih
          simp only [Except.isOk, Except.toBool] at ih ⊢
          simp [hd, ← ih]
        | ok n =>
          rw [hrec] at ih
          simp only [Except.isOk, Except.toBool] at ih ⊢
          simp [hd, ← ih]

/-! # Store lemmas for the Metric Aggregator -/

lemma lookupKpi_cons (r : (String × ℕ) × ℚ) (rest : KpiStore) (k : String × ℕ) :
    lookupKpi (r :: rest) k = if r.1 = k then some r.2 else lookupKpi rest k := by
  simp only [lookupKpi, List.find?_cons]
  by_cases h : r.1 = k
  · simp [h]
  · simp [h]

lemma lookup_upsertRow_self (k : String × ℕ) (v : ℚ) (s : KpiStore) :
    lookupKpi (upsertRow k v s) k = some v := by
  induction s with
  | nil => simp [upsertRow, lookupKpi_cons]
  | cons r rest ih =>
    rcases r with ⟨k', v'⟩
    rw [upsertRow]
    by_cases h : k' = k
    · rw [if_pos h, lookupKpi_cons]
      simp
    · rw [if_neg h, lookupKpi_cons]
      simp only [h, if_false]
      exact ih

lemma lookup_upsertRow_ne (k k2 : String × ℕ) (v : ℚ) (s : KpiStore) (h : k2 ≠ k) :
    lookupKpi (upsertRow k v s) k2 = lookupKpi s k2 := by
  induction s with
  | nil =>
    rw [upsertRow, lookupKpi_cons]
    simp [Ne.symm h, lookupKpi]
  | cons r rest ih =>
    rcases r with ⟨k', v'⟩
    rw [upsertRow]
    by_cases hk : k' = k
    · rw [if_pos hk, lookupKpi_cons, lookupKpi_cons]
      simp [Ne.symm h, hk]
    · rw [if_neg hk, lookupKpi_cons, lookupKpi_cons]
      by_cases h2 : k' = k2
      · simp [h2]
      · simp only [h2, if_false]
        exact ih

lemma upsertRow_id (k : String × ℕ) (v : ℚ) (s : KpiStore)
    (h : lookupKpi s k = some v) : upsertRow k v s = s := by
  induction s with
  | nil => simp [lookupKpi] at h
  | cons r rest ih =>
    rcases r with ⟨k', v'⟩
    rw [lookupKpi_cons] at h
    rw [upsertRow]
    by_cases hk : k' = k
    · rw [if_pos hk]
      rw [if_pos hk] at h
      simp only [Option.some_inj] at h
      rw [hk, h]
    · rw [if_neg hk]
      rw [if_neg hk] at h
      rw [ih h]

lemma upsertRows_cons (r : (String × ℕ) × ℚ) (rows : List ((String × ℕ) × ℚ))
    (s : KpiStore) : upsertRows (r :: rows) s = upsertRows rows (upsertRow r.1 r.2 s) := rfl

lemma upsertRows_id (rows : List ((String × ℕ) × ℚ)) (s : KpiStore)
    (h : ∀ r ∈ rows, lookupKpi s r.1 = some r.2) : upsertRows rows s = s := by
  induction rows with
  | nil => rfl
  | cons r rest ih =>
    rw [upsertRows_cons, upsertRow_id r.1 r.2 s (h r (List.mem_cons_self r rest))]
    exact ih (fun r' hr' => h r' (List.mem_cons_of_mem r hr'))

lemma lookup_upsertRows_ne (rows : List ((String × ℕ) × ℚ)) (s : KpiStore)
    (k : String × ℕ) (h : ∀ r ∈ rows, r.1 ≠ k) :
    lookupKpi (upsertRows rows s) k = lookupKpi s k := by
  induction rows generalizing s with
  | nil => rfl
  | cons r rest ih =>
    rw [upsertRows_cons,
      ih (upsertRow r.1 r.2 s) (fun r' hr' => h r' (List.mem_cons_of_mem r hr')),
      lookup_upsertRow_ne _ _ _ _ (Ne.symm (h r (List.mem_cons_self r rest)))]

lemma lookup_upsertRows_mem (rows : List ((String × ℕ) × ℚ)) (k : String × ℕ) (v : ℚ) :
    (rows.map (fun r => r.1)).Nodup → (k, v) ∈ rows →
    ∀ s : KpiStore, lookupKpi (upsertRows rows s) k = some v := by
  induction rows with
  | nil =>
    intro _ hmem
    simp at hmem
  | cons r rest ih =>
    intro hnodup hmem s
    rw [upsertRows_cons]
    rcases List.mem_cons.mp hmem with heq | hmem'
    · subst heq
      have hnotin : ∀ r' ∈ rest, r'.1 ≠ (k, v).1 := by
        intro r' hr' hk
        have hmm : r'.1 ∈ List.map (fun r => r.1) rest := List.mem_map.mpr ⟨r', hr', rfl⟩
        rw [hk] at hmm
        exact (List.nodup_cons.mp hnodup).1 hmm
      rw [lookup_upsertRows_ne rest _ _ hnotin]
      exact lookup_upsertRow_self _ _ _
    · exact ih (List.nodup_cons.mp hnodup).2 hmem' _

lemma filter_upsertRow (p : String × ℕ → Bool) (k : String × ℕ) (v : ℚ) (s : KpiStore)
    (hp : p k = false) :
    (upsertRow k v s).filter (fun r => p r.1) = s.filter (fun r => p r.1) := by
  induction s with
  | nil => simp [upsertRow, List.filter_cons, hp]
  | cons r rest ih =>
    rcases r with ⟨k', v'⟩
    rw [upsertRow]
    by_cases hk : k' = k
    · rw [if_pos hk]
      simp [List.filter_cons, hk, hp]
    · rw [if_neg hk]
      simp only [List.filter_cons]
      rcases hpk' : p k' with _ | _ <;> simp [hpk', ih]

lemma filter_upsertRows (p : String × ℕ → Bool) (rows : List ((String × ℕ) × ℚ))
    (s : KpiStore) (h : ∀ r ∈ rows, p r.1 = false) :
    (upsertRows rows s).filter (fun r => p r.1) = s.filter (fun r => p r.1) := by
  induction rows generalizing s with
  | nil => rfl
  | cons r rest ih =>
    rw [upsertRows_cons,
      ih (upsertRow r.1 r.2 s) (fun r' hr' => h r' (List.mem_cons_of_mem r hr')),
      filter_upsertRow p r.1 r.2 s (h r (List.mem_cons_self r rest))]

lemma foldMetrics_cons (txs : List Transaction) (d : MetricDefinition)
    (defs : List MetricDefinition) (s : KpiStore) :
    foldMetrics txs (d :: defs) s = foldMetrics txs defs (compute_single_metric txs d s) := rfl

lemma kpiRows_key_name (txs : List Transaction) (metric : MetricDefinition) :
    ∀ r ∈ kpiRows txs metric, r.1.1 = metric.name := by
  intro r hr
  rcases List.mem_map.mp hr with ⟨x, _, rfl⟩
  rfl

lemma kpiRows_keys_nodup (txs : List Transaction) (metric : MetricDefinition) :
    ((kpiRows txs metric).map (fun r => r.1)).Nodup := by
  simp only [kpiRows, compute_single_metric_rows, List.map_map]
  exact List.Nodup.map (fun a b h => congrArg Prod.snd h) (List.nodup_dedup _)

lemma totalRows_key_name (names : List String) (outName : String) (s : KpiStore) :
    ∀ r ∈ totalRows names outName s, r.1.1 = outName := by
  intro r hr
  simp only [totalRows] at hr
  rcases List.mem_map.mp hr with ⟨m, _, rfl⟩
  rfl

lemma totalRows_keys_nodup (names : List String) (outName : String) (s : KpiStore) :
    ((totalRows names outName s).map (fun r => r.1)).Nodup := by
  simp only [totalRows, List.map_map]
  exact List.Nodup.map (fun a b h => congrArg Prod.snd h) (List.nodup_dedup _)

lemma totalRows_congr (names : List String) (outName : String) (s t : KpiStore)
    (h : s.filter (fun r => names.contains r.1.1) = t.filter (fun r => names.contains r.1.1)) :
    totalRows names outName s = totalRows names outName t := by
  unfold totalRows
  rw [h]

lemma filterNames_upsertRows (names : List String) (rows : List ((String × ℕ) × ℚ))
    (s : KpiStore) (h : ∀ r ∈ rows, names.contains r.1.1 = false) :
    (upsertRows rows s).filter (fun r => names.contains r.1.1) =
      s.filter (fun r => names.contains r.1.1) :=
  filter_upsertRows (fun k => names.contains k.1) rows s h

lemma foldMetrics_lookup_ne (txs : List Transaction) (defs : List MetricDefinition)
    (n : String) (mo : ℕ) (h : ∀ m ∈ defs, m.name ≠ n) :
    ∀ s : KpiStore, lookupKpi (foldMetrics txs defs s) (n, mo) = lookupKpi s (n, mo) := by
  induction defs with
  | nil => intro s; rfl
  | cons d rest ih =>
    intro s
    rw [foldMetrics_cons, ih (fun m hm => h m (List.mem_cons_of_mem d hm))]
    apply lookup_upsertRows_ne
    intro r hr hkey
    apply h d (List.mem_cons_self d rest)
    rw [← kpiRows_key_name txs d r hr, hkey]

lemma foldMetrics_lookup (txs : List Transaction) (defs : List MetricDefinition)
    (hnodup : (defs.map (fun m => m.name)).Nodup) (metric : MetricDefinition)
    (hmem : metric ∈ defs) (r : (String × ℕ) × ℚ) (hr : r ∈ kpiRows txs metric) :
    ∀ s : KpiStore, lookupKpi (foldMetrics txs defs s) r.1 = some r.2 := by
  induction defs with
  | nil => simp at hmem
  | cons d rest ih =>
    intro s
    rw [foldMetrics_cons]
    rcases List.mem_cons.mp hmem with rfl | hmem'
    · have hkeyname := kpiRows_key_name txs metric r hr
      have hne : ∀ m ∈ rest, m.name ≠ r.1.1 := by
        intro m hm heq
        simp only [List.map_cons] at hnodup
        apply (List.nodup_cons.mp hnodup).1
        have h2 : m.name = metric.name := by rw [heq, hkeyname]
        rw [← h2]
        exact List.mem_map.mpr ⟨m, hm, rfl⟩
      have hstep := foldMetrics_lookup_ne txs rest r.1.1 r.1.2
        (fun m hm => hne m hm) (compute_single_metric txs metric s)
      have hthis : lookupKpi (compute_single_metric txs metric s) r.1 = some r.2 :=
        lookup_upsertRows_mem (kpiRows txs metric) r.1 r.2
          (kpiRows_keys_nodup txs metric) hr s
      exact hstep.trans hthis
    · simp only [List.map_cons] at hnodup
      exact ih (List.nodup_cons.mp hnodup).2 hmem' _

lemma foldMetrics_id (txs : List Transaction) (defs : List MetricDefinition) (s : KpiStore)
    (h : ∀ metric ∈ defs, ∀ r ∈ kpiRows txs metric, lookupKpi s r.1 = some r.2) :
    foldMetrics txs defs s = s := by
  induction defs with
  | nil => rfl
  | cons d rest ih =>
    rw [foldMetrics_cons,
      show compute_single_metric txs d s = s from
        upsertRows_id _ _ (h d (List.mem_cons_self d rest))]
    exact ih (fun m hm => h m (List.mem_cons_of_mem d hm))

lemma metric_names_nodup : (METRIC_DEFINITIONS.map (fun m => m.name)).Nodup := by
  decide

lemma total_revenue_not_metric : ∀ m ∈ METRIC_DEFINITIONS, m.name ≠ "total_revenue" := by
  decide

lemma total_expenses_not_metric : ∀ m ∈ METRIC_DEFINITIONS, m.name ≠ "total_expenses" := by
  decide

lemma rev_contains_tr : revenue_metrics.contains "total_revenue" = false := by decide

lemma rev_contains_te : revenue_metrics.contains "total_expenses" = false := by decide

lemma exp_contains_te : expense_metrics.contains "total_expenses" = false := by decide

lemma run_lookup_base (txs : List Transaction) (s : KpiStore) :
    ∀ metric ∈ METRIC_DEFINITIONS, ∀ r ∈ kpiRows txs metric,
      lookupKpi (aggregatorRun s txs) r.1 = some r.2 := by
  intro metric hm r hr
  have hname := kpiRows_key_name txs metric r hr
  have hne_te : ∀ r' ∈ totalRows expense_metrics "total_expenses"
      (compute_total_revenue (compute_monthly_kpis txs s)), r'.1 ≠ r.1 := by
    intro r' hr' hkey
    have h1 := totalRows_key_name _ _ _ r' hr'
    apply total_expenses_not_metric metric hm
    rw [← hname, ← hkey]
    exact h1
  have hne_tr : ∀ r' ∈ totalRows revenue_metrics "total_revenue"
      (compute_monthly_kpis txs s), r'.1 ≠ r.1 := by
    intro r' hr' hkey
    have h1 := totalRows_key_name _ _ _ r' hr'
    apply total_revenue_not_metric metric hm
    rw [← hname, ← hkey]
    exact h1
  show lookupKpi (upsertRows (totalRows expense_metrics "total_expenses"
      (compute_total_revenue (compute_monthly_kpis txs s)))
      (compute_total_revenue (compute_monthly_kpis txs s))) r.1 = some r.2
  rw [lookup_upsertRows_ne _ _ _ hne_te]
  show lookupKpi (upsertRows (totalRows revenue_metrics "total_revenue"
      (compute_monthly_kpis txs s)) (compute_monthly_kpis txs s)) r.1 = some r.2
  rw [lookup_upsertRows_ne _ _ _ hne_tr]
  exact foldMetrics_lookup txs METRIC_DEFINITIONS metric_names_nodup metric hm r hr s

lemma run_base_id (txs : List Transaction) (s : KpiStore) :
    compute_monthly_kpis txs (aggregatorRun s txs) = aggregatorRun s txs :=
  foldMetrics_id txs METRIC_DEFINITIONS (aggregatorRun s txs) (run_lookup_base txs s)

lemma run_totalrev_eq (txs : List Transaction) (s : KpiStore) :
    totalRows revenue_metrics "total_revenue" (aggregatorRun s txs) =
      totalRows revenue_metrics "total_revenue" (compute_monthly_kpis txs s) := by
  apply totalRows_congr
  have hE : ∀ r ∈ totalRows expense_metrics "total_expenses"
      (compute_total_revenue (compute_monthly_kpis txs s)),
      revenue_metrics.contains r.1.1 = false := by
    intro r hr
    rw [totalRows_key_name _ _ _ r hr]
    exact rev_contains_te
  have hR : ∀ r ∈ totalRows revenue_metrics "total_revenue" (compute_monthly_kpis txs s),
      revenue_metrics.contains r.1.1 = false := by
    intro r hr
    rw [totalRows_key_name _ _ _ r hr]
    exact rev_contains_tr
  show (upsertRows (totalRows expense_metrics "total_expenses"
      (compute_total_revenue (compute_monthly_kpis txs s)))
      (compute_total_revenue (compute_monthly_kpis txs s))).filter
        (fun r => revenue_metrics.contains r.1.1) =
    (compute_monthly_kpis txs s).filter (fun r => revenue_metrics.contains r.1.1)
  rw [filterNames_upsertRows _ _ _ hE]
  show (upsertRows (totalRows revenue_metrics "total_revenue" (compute_monthly_kpis txs s))
      (compute_monthly_kpis txs s)).filter (fun r => revenue_metrics.contains r.1.1) =
    (compute_monthly_kpis txs s).filter (fun r => revenue_metrics.contains r.1.1)
  rw [filterNames_upsertRows _ _ _ hR]

lemma run_upsert_rev_id (txs : List Transaction) (s : KpiStore) :
    upsertRows (totalRows revenue_metrics "total_revenue" (compute_monthly_kpis txs s))
      (aggregatorRun s txs) = aggregatorRun s txs := by
  apply upsertRows_id
  intro r hr
  have hname := totalRows_key_name _ _ _ r hr
  have hne : ∀ r' ∈ totalRows expense_metrics "total_expenses"
      (compute_total_revenue (compute_monthly_kpis txs s)), r'.1 ≠ r.1 := by
    intro r' hr' hkey
    have h1 := totalRows_key_name _ _ _ r' hr'
    rw [hkey, hname] at h1
    exact absurd h1 (by decide)
  show lookupKpi (upsertRows (totalRows expense_metrics "total_expenses"
      (compute_total_revenue (compute_monthly_kpis txs s)))
      (compute_total_revenue (compute_monthly_kpis txs s))) r.1 = some r.2
  rw [lookup_upsertRows_ne _ _ _ hne]
  show lookupKpi (upsertRows (totalRows revenue_metrics "total_revenue"
      (compute_monthly_kpis txs s)) (compute_monthly_kpis txs s)) r.1 = some r.2
  exact lookup_upsertRows_mem _ _ _ (totalRows_keys_nodup _ _ _) hr _

lemma run_totalexp_eq (txs : List Transaction) (s : KpiStore) :
    totalRows expense_metrics "total_expenses" (aggregatorRun s txs) =
      totalRows expense_metrics "total_expenses"
        (compute_total_revenue (compute_monthly_kpis txs s)) := by
  apply totalRows_congr
  have hE : ∀ r ∈ totalRows expense_metrics "total_expenses"
      (compute_total_revenue (compute_monthly_kpis txs s)),
      expense_metrics.contains r.1.1 = false := by
    intro r hr
    rw [totalRows_key_name _ _ _ r hr]
    exact exp_contains_te
  exact filterNames_upsertRows _ _ _ hE

lemma run_upsert_exp_id (txs : List Transaction) (s : KpiStore) :
    upsertRows (totalRows expense_metrics "total_expenses"
        (compute_total_revenue (compute_monthly_kpis txs s)))
      (aggregatorRun s txs) = aggregatorRun s txs := by
  apply upsertRows_id
  intro r hr
  exact lookup_upsertRows_mem _ _ _ (totalRows_keys_nodup _ _ _) hr _

/-- Claim C8: running the Metric Aggregator (all base metrics, then the
derived totals) twice over an unchanged transaction set yields the same
`monthly_kpis` store as running it once — every upsert of the second run
overwrites a row with the value it already holds, never accumulating. -/
theorem aggregator_idempotent (s : KpiStore) (txs : List Transaction) :
    aggregatorRun (aggregatorRun s txs) txs = aggregatorRun s txs := by
  show compute_total_expenses (compute_total_revenue
    (compute_monthly_kpis txs (aggregatorRun s txs))) = aggregatorRun s txs
  rw [run_base_id txs s]
  show compute_total_expenses (upsertRows (totalRows revenue_metrics "total_revenue"
    (aggregatorRun s txs)) (aggregatorRun s txs)) = aggregatorRun s txs
  rw [run_totalrev_eq txs s, run_upsert_rev_id txs s]
  show upsertRows (totalRows expense_metrics "total_expenses" (aggregatorRun s txs))
    (aggregatorRun s txs) = aggregatorRun s txs
  rw [run_totalexp_eq txs s, run_upsert_exp_id txs s]
